/-
Verification development for the calendar-export pipeline in
`src/export_image.py` (repository `autosesemenyek-imggen`).

The Python program is embedded shallowly:
  * machine-independent data (dates, instants, strings) becomes plain Lean
    data (`Int` instants in seconds since the Unix epoch, `List Char`
    strings);
  * environment interactions (the wall clock, HTTP fetches, the
    filesystem) become explicit parameters of the embedded functions;
  * Python library semantics that the source relies on
    (`datetime` proleptic-Gregorian arithmetic, `zoneinfo` lookups for
    Europe/Budapest under the post-1996 EU daylight-saving rule,
    `str.replace`, `re.finditer` for the one concrete pattern used,
    tuple-lexicographic comparison in `sorted`) are embedded directly,
    as the source's behaviour is defined by them.
All definitions are executable.
-/
import Mathlib

/-! ## Proleptic Gregorian calendar arithmetic

Models Python `datetime.date` ordinal arithmetic (`toordinal`,
`fromordinal`, `timedelta` day arithmetic).  Days are counted from
1970-01-01 (day 0); the algorithms are the standard civil-from-days /
days-from-civil conversions, written with Euclidean division, which for
positive divisors agrees with Python's floor division. -/

/-- Day number (1970-01-01 = 0) of the civil date `y-m-d`. -/
def daysFromCivil (y m d : Int) : Int :=
  let yy := if m ≤ 2 then y - 1 else y
  let era := Int.fdiv yy 400
  let yoe := yy - era * 400
  let mp := Int.emod (m + 9) 12
  let doy := Int.ediv (153 * mp + 2) 5 + d - 1
  let doe := yoe * 365 + Int.ediv yoe 4 - Int.ediv yoe 100 + doy
  era * 146097 + doe - 719468

/-- Civil date `(y, m, d)` of a day number (inverse of `daysFromCivil`). -/
def civilFromDays (z0 : Int) : Int × Int × Int :=
  let z := z0 + 719468
  let era := Int.fdiv z 146097
  let doe := z - era * 146097
  let yoe := Int.ediv (doe - Int.ediv doe 1460 + Int.ediv doe 36524 - Int.ediv doe 146096) 365
  let y := yoe + era * 400
  let doy := doe - (365 * yoe + Int.ediv yoe 4 - Int.ediv yoe 100)
  let mp := Int.ediv (5 * doy + 2) 153
  let d := doy - Int.ediv (153 * mp + 2) 5 + 1
  let m := if mp < 10 then mp + 3 else mp - 9
  (if m ≤ 2 then y + 1 else y, m, d)

/-- A Python `datetime.date` value: a bare calendar date with no time of
day. -/
structure Date where
  year : Int
  month : Int
  day : Int
deriving DecidableEq

/-- Day number of a `Date`. -/
def dateToDays (d : Date) : Int := daysFromCivil d.year d.month d.day

/-- the `Date` of a day number. -/
def daysToDate (z : Int) : Date :=
  let c := civilFromDays z
  ⟨c.1, c.2.1, c.2.2⟩

/-- Python `d - timedelta(days=1)` on a `date` value. -/
def dayPred (d : Date) : Date := daysToDate (dateToDays d - 1)

/-! ## The Europe/Budapest timezone (`TIMEZONE` in the source)

Embeds the `zoneinfo` data the source depends on, under the EU rule in
force since 1996: CEST (UTC+2) from 01:00 UTC on the last Sunday of
March until 01:00 UTC on the last Sunday of October, CET (UTC+1)
otherwise.  Instants are seconds since the Unix epoch, UTC. -/

/-- Day number of the last Sunday of month `m` (March or October, both
31-day months) of year `y`.  Day 0 (1970-01-01) was a Thursday, so
`(z + 4) % 7 = 0` exactly on Sundays. -/
def lastSundayZ (y m : Int) : Int :=
  let z := daysFromCivil y m 31
  z - Int.emod (z + 4) 7

/-- UTC offset (in seconds) of Europe/Budapest at the UTC instant `t`. -/
def budapestOffsetAtUtc (t : Int) : Int :=
  let y := (civilFromDays (Int.fdiv t 86400)).1
  let dstS := lastSundayZ y 3 * 86400 + 3600
  let dstE := lastSundayZ y 10 * 86400 + 3600
  if dstS ≤ t ∧ t < dstE then 7200 else 3600

/-- UTC offset (in seconds) of Europe/Budapest in effect at local
midnight of the date `d`.  Both transitions happen at 02:00/03:00 local
time, so midnight of the spring transition day is still CET and midnight
of the autumn transition day is still CEST. -/
def budapestOffsetAtMidnight (d : Date) : Int :=
  let z := dateToDays d
  if lastSundayZ d.year 3 < z ∧ z ≤ lastSundayZ d.year 10 then 7200 else 3600

/-- The UTC instant of Python `datetime(d.year, d.month, d.day,
tzinfo=TIMEZONE)`: local midnight of `d` in Europe/Budapest. -/
def budapestMidnight (d : Date) : Int :=
  dateToDays d * 86400 - budapestOffsetAtMidnight d

/-- Budapest civil date containing the UTC instant `t` (the `.year`,
`.month`, `.day` fields of an aware `datetime` in `TIMEZONE`). -/
def budapestCivilDate (t : Int) : Date :=
  daysToDate (Int.fdiv (t + budapestOffsetAtUtc t) 86400)

/-! ## The event data model -/

/-- A Python date-or-datetime value as produced by the `icalendar`
library for `DTSTART`/`DTEND`: either a bare `date`, or a
timezone-aware `datetime`, the latter identified with its UTC instant
(aware datetimes compare and convert through their UTC instant). -/
inductive PyDT where
  | date (d : Date)
  | datetime (t : Int)
deriving DecidableEq

/-- source `get_time` (src/export_image.py lines 160-165): convert date
or datetime to a datetime for comparisons.  A `datetime` is returned
unchanged; a bare `date` becomes midnight of that date in `TIMEZONE`. -/
def get_time : PyDT → Int
  | .datetime t => t
  | .date d => budapestMidnight d

/-- One event as assembled by source `get_calendar_events`
(lines 146-158): summary, location, start, end and the tagged colour.
`location` is `none` when the component has no location (Python
`None`). -/
structure Event where
  summary : String
  location : Option String
  start : PyDT
  end_ : PyDT
  clr : String
deriving DecidableEq

/-- Reference instant of source `get_future_events` (lines 167-172):
`now` itself, or, when `start_of_day` is set, local midnight of the
current Budapest day (`datetime(now.year, now.month, now.day,
tzinfo=TIMEZONE)`). -/
def reference (now : Int) (start_of_day : Bool) : Int :=
  if start_of_day then budapestMidnight (budapestCivilDate now) else now

/-- source `get_future_events` (lines 167-172): keep the events whose
end, normalized through `get_time`, is strictly after the reference
instant.  The wall-clock reading `datetime.now(TIMEZONE)` is passed in
as the parameter `now`. -/
def get_future_events (now : Int) (start_of_day : Bool) (evtdata : List Event) : List Event :=
  let ref := reference now start_of_day
  evtdata.filter (fun evt => decide (ref < get_time evt.end_))

/-! ## The sorter (source `main`, line 268)

`sorted(evtdata, key=lambda evt: (get_time(evt["start"]), evt["summary"]))`:
a stable sort by the lexicographic order on the pair
(normalized start instant, summary string).  Python compares strings by
code points; `pyStrLeB` is that lexicographic order. -/

/-- Python code-point-lexicographic `≤` on strings (as char lists). -/
def pyStrLeB : List Char → List Char → Bool
  | [], _ => true
  | _ :: _, [] => false
  | a :: as, b :: bs => a.toNat < b.toNat || (a.toNat == b.toNat && pyStrLeB as bs)

/-- the sort key of an event: `(get_time(evt["start"]), evt["summary"])`. -/
def evtKey (e : Event) : Int × String := (get_time e.start, e.summary)

/-- Python tuple-lexicographic `≤` on sort keys. -/
def evtLe (a b : Event) : Bool :=
  decide (get_time a.start < get_time b.start) ||
    (decide (get_time a.start = get_time b.start) && pyStrLeB a.summary.data b.summary.data)

/-- source line 268: the stable sort of the event list by `evtKey`
(Python's `sorted` is a stable merge sort). -/
def sortEvents (evts : List Event) : List Event := evts.mergeSort evtLe

/-! ## Display formatting (source `events_to_html_table`, lines 174-197)

`format_dt` embeds the inner function of the same name (lines 178-183):
`DATE_FMT = '%Y.%m.%d.'`, `DATETIME_FMT = DATE_FMT + ' %H:%M'`; a bare
end-date is first decremented by one day ("dates are an open ended
interval, so show the day before as the end date"), a `datetime` is
converted to `TIMEZONE` and printed with hours and minutes. -/

/-- zero-padded two-digit rendering of a field (strftime `%m`, `%d`, `%H`, `%M`). -/
def pad2 (n : Int) : String := if n < 10 then "0" ++ toString n else toString n

/-- zero-padded four-digit rendering of the year (strftime `%Y`). -/
def pad4 (n : Int) : String :=
  if n < 10 then "000" ++ toString n
  else if n < 100 then "00" ++ toString n
  else if n < 1000 then "0" ++ toString n
  else toString n

/-- strftime with the source's `DATE_FMT = '%Y.%m.%d.'`. -/
def formatDateFmt (d : Date) : String :=
  pad4 d.year ++ "." ++ pad2 d.month ++ "." ++ pad2 d.day ++ "."

/-- strftime with the source's `DATETIME_FMT = '%Y.%m.%d. %H:%M'`, applied
to `dt.astimezone(TIMEZONE)`: the instant is shifted by the Budapest
offset and split into local date, hour and minute. -/
def formatDateTimeFmt (t : Int) : String :=
  let loc := t + budapestOffsetAtUtc t
  let z := Int.fdiv loc 86400
  let sod := Int.emod loc 86400
  formatDateFmt (daysToDate z) ++ " " ++
    pad2 (Int.ediv sod 3600) ++ ":" ++ pad2 (Int.ediv (Int.emod sod 3600) 60)

/-- source `format_dt` (lines 178-183).  The second argument embeds the
keyword parameter `end` (a Lean keyword, hence renamed `isEnd`). -/
def format_dt (dt : PyDT) (isEnd : Bool) : String :=
  match dt with
  | .datetime t => formatDateTimeFmt t
  | .date d => formatDateFmt (if isEnd then dayPred d else d)

/-- One `<tr>` row of the body (the f-string of lines 189-193).  The
`location` binding embeds `evt.get('location', '') or ''`: an absent or
`None` location becomes the empty string (and an empty string stays
empty).  Summary and location are spliced in verbatim. -/
def eventRow (evt : Event) : String :=
  let summary := evt.summary
  let location := evt.location.getD ("")
  "<tr style=\"color: " ++ evt.clr ++ ";\">" ++
    "<td>" ++ format_dt evt.start false ++ "</td><td>" ++ format_dt evt.end_ true ++ "</td>" ++
    "<td>" ++ summary ++ "</td><td>" ++ location ++ "</td></tr>"

/-- the `html` list built by the loop of lines 185-193: one row string per
event, appended in order. -/
def tableRows (events : List Event) : List String :=
  events.foldl (fun html evt => html ++ [eventRow evt]) []

/-! ## Python `str.replace`

`str.replace(old, new)` replaces every non-overlapping occurrence of
`old`, scanning left to right; `str.replace(old, new, 1)` replaces only
the first occurrence.  Both are modelled for non-empty needles (the
source only uses the non-empty needles `'@TABLE_ROWS@'` and
`'@SRC_URL@'`).  `pyReplaceAllAux` carries fuel, one unit per scanned
position; each iteration consumes at least one character, so fuel equal
to the length of the subject is sufficient and keeps the definition
structurally recursive (hence executable in the kernel). -/

/-- whether `pat` is a prefix of `s`. -/
def pyStartsWith : List Char → List Char → Bool
  | [], _ => true
  | _ :: _, [] => false
  | p :: ps, c :: cs => p == c && pyStartsWith ps cs

/-- whether `pat` occurs as a contiguous substring of the subject. -/
def pyContainsL (pat : List Char) : List Char → Bool
  | [] => pyStartsWith pat []
  | c :: cs => pyStartsWith pat (c :: cs) || pyContainsL pat cs

/-- String wrapper for `pyContainsL` (Python `pat in s`). -/
def pyContains (s pat : String) : Bool := pyContainsL pat.data s.data

/-- Python `s.replace(pat, repl, 1)`: replace only the first occurrence. -/
def pyReplaceFirstL (pat repl : List Char) : List Char → List Char
  | [] => []
  | c :: cs =>
    if pat ≠ [] ∧ pyStartsWith pat (c :: cs) then
      repl ++ List.drop (pat.length - 1) cs
    else
      c :: pyReplaceFirstL pat repl cs

/-- fuelled scanner for Python `s.replace(pat, repl)` (all occurrences).
The fuel is a list consumed one cell per scanned position; passing the
subject itself as fuel is enough, since every iteration consumes at
least one character of the subject. -/
def pyReplaceAllAux (pat repl : List Char) : List Char → List Char → List Char
  | _, [] => []
  | [], s => s
  | _ :: fuel, c :: cs =>
    if pat ≠ [] ∧ pyStartsWith pat (c :: cs) then
      repl ++ pyReplaceAllAux pat repl fuel (List.drop (pat.length - 1) cs)
    else
      c :: pyReplaceAllAux pat repl fuel cs

/-- Python `s.replace(pat, repl)`: replace every occurrence. -/
def pyReplaceAllL (pat repl s : List Char) : List Char :=
  pyReplaceAllAux pat repl s s

/-- String wrapper for `pyReplaceFirstL`. -/
def pyReplaceFirst (s pat repl : String) : String :=
  ⟨pyReplaceFirstL pat.data repl.data s.data⟩

/-- String wrapper for `pyReplaceAllL`. -/
def pyReplaceAll (s pat repl : String) : String :=
  ⟨pyReplaceAllL pat.data repl.data s.data⟩

/-- the module-level `HTML_TEMPLATE` constant (source lines 30-122),
transcribed byte for byte (braces written `\x7b`/`\x7d` and apostrophes
`\x27`). -/
def HTML_TEMPLATE : String :=
  "<!DOCTYPE html>\n<html lang=\"hu\">\n<head>\n  <title>Autós Események</title>\n  <meta name=\"color-scheme\" content=\"only light\">\n  <style>\n    @page \x7b\n      margin: 0mm;\n      size: 210mm 373.3mm;\n    \x7d\n    html \x7b\n      font-family: Bahnschrift, Verdana, Arial, sans-serif;\n      font-size: 4mm;\n      background-image: url(\x27@SRC_URL@/pattern.jpg\x27);\n      background-repeat: repeat;\n      background-size: 210mm;\n      text-shadow: 0 0 10px white, 0 0 1px #000000b3;\n    \x7d\n    body \x7b\n      margin: 0;\n    \x7d\n    a \x7b\n      color: inherit;\n      text-decoration: none;\n    \x7d\n    table \x7b\n      border: none;\n      border-collapse: collapse;\n      border-spacing: 0;\n      table-layout: fixed;\n      width: 100%;\n    \x7d\n    thead \x7b\n      background-color: #a7b6d662;\n      background: linear-gradient(0deg,#0725384d 0%, #001a4d36 24%, #091b4b1a 79%, #092f4f29 91%, #0a325a17 100%);\n      box-shadow: 0px 0px 5px #000000;\n      font-family: Verdana, Arial, sans-serif;\n      font-weight: bold;\n    \x7d\n    thead h1 \x7b\n      font-size: 1.75em;\n      margin: 0;\n      margin-top: 6px;\n      margin-bottom: 6px;\n    \x7d\n    thead p \x7b\n      font-size: 0.8em;\n      font-weight: normal;\n      margin: 0;\n    \x7d\n    thead p:last-child \x7b\n      margin-bottom: 4px;\n    \x7d\n    thead p a \x7b\n      font-weight: bold;\n    \x7d\n    th \x7b\n      border: none;\n    \x7d\n    td \x7b\n      border: 1px solid gray;\n      border-left: none;\n      border-right: none;\n      padding: 2px 6px 2px 6px;\n    \x7d\n    tr td:nth-child(1), tr td:nth-child(2) \x7b\n      page-break-inside: avoid !important;\n      white-space: nowrap;\n    \x7d\n  </style>\n</head>\n<body>\n  <table cellspacing=\"0\" cellpadding=\"4\">\n    <colgroup>\n      <col span=\"2\" style=\"width:32mm;\" /> <!-- Change if font is changed! -->\n      <col span=\"1\" style=\"width:60%;\" />\n      <col span=\"1\" style=\"width:40%;\" />\n    </colgroup>\n    <thead>\n      <tr><th colspan=\"4\">\n        <h1>AUTÓS ESEMÉNYEK NAPTÁRA</h1>\n        <p><a href=\"https://sp3eder.github.io/autosesemenyek/\" target=\"_blank\">sp3eder.github.io/autosesemenyek</a> &#8212; eseményleírások, élő követés</p>\n        <p class=\"small\"><a href=\"https://sp3eder.github.io/\" target=\"_blank\">sp3eder.github.io</a> &#8212; Autós Appok: alkalmazások az autós közösségnek</p>\n      </th></tr>\n      <tr><th>KEZDÉS</th><th>VÉGE</th><th>ESEMÉNY</th><th>HELYSZÍN</th></tr>\n    </thead>\n    <tbody>\n      @TABLE_ROWS@\n    </tbody>\n  </table>\n</body>\n</html>\n"

/-- source `events_to_html_table` (lines 174-197): join the rows with
newlines, substitute them for the first occurrence of `@TABLE_ROWS@`
(`str.replace` with count 1), then substitute every occurrence of
`@SRC_URL@` with the script directory's file URI.  The URI
(`pathlib.Path(os.path.dirname(os.path.abspath(__file__))).as_uri()`)
is an environment input, passed as `script_url`. -/
def events_to_html_table (script_url : String) (events : List Event) : String :=
  let html := tableRows events
  pyReplaceAll
    (pyReplaceFirst HTML_TEMPLATE ("@TABLE_ROWS@") (String.intercalate ("\n") html))
    ("@SRC_URL@") script_url

/-! ## The feed locator (source `parse_calids_from_html`, lines 133-136)

The source scans the document with `re.finditer` for the pattern

  `{\s*['"]id['"]\s*:\s*['"]([^'"]+)['"]\s*,\s*['"]clr['"]\s*:\s*['"](#[0-9A-Fa-f]+)['"]\s*}`

(the two capture groups are named `calid` and `clr`; each `['"]` matches
one quote of either kind, independently of the others).  In this pattern
every repeated class is disjoint from the single character that must
follow it (`\s` never matches a quote, `:`, `,` or `}`; `[^'"]` and
`[0-9A-Fa-f]` never match a quote), so greedy matching is exact maximal
munch and the whole pattern is matched deterministically, with no
backtracking: the scanner below is its direct embedding.  `finditer`
tries the pattern at each position, yields the match and resumes right
after it on success, and moves one character forward on failure; every
successful match starts with `{` and thus consumes at least one
character, so fuel equal to the subject length makes `findIterAux` a
faithful, structurally recursive rendering of that loop. -/

/-- the `{` character (written via its code point 123). -/
def braceL : Char := Char.ofNat 123

/-- the `}` character (written via its code point 125). -/
def braceR : Char := Char.ofNat 125

/-- the `'` character (code point 39). -/
def squote : Char := Char.ofNat 39

/-- the `"` character (code point 34). -/
def dquote : Char := Char.ofNat 34

/-- the ASCII whitespace characters matched by the pattern's `\s`
(Python also lets `\s` match some rarer Unicode whitespace; the feed
documents are ASCII-whitespace only, and the claims quantify over the
pattern's flexible-whitespace positions through this class). -/
def isPySpace (c : Char) : Bool :=
  c == ' ' || c == '\t' || c == '\n' || c == '\r' || c == '\x0b' || c == '\x0c'

/-- the class `['"]`: a single or double quote. -/
def isQuote (c : Char) : Bool := c == squote || c == dquote

/-- the class `[0-9A-Fa-f]`: a hexadecimal digit. -/
def isHexB (c : Char) : Bool :=
  (48 ≤ c.toNat && c.toNat ≤ 57) || (65 ≤ c.toNat && c.toNat ≤ 70) ||
    (97 ≤ c.toNat && c.toNat ≤ 102)

/-- consume one expected literal character. -/
def pExact (c : Char) : List Char → Option (List Char)
  | [] => none
  | x :: t => if x = c then some t else none

/-- consume one quote character (the class `['"]`). -/
def pQuote : List Char → Option (List Char)
  | [] => none
  | x :: t => if isQuote x then some t else none

/-- consume `\s*` (greedy, exact since the follower is never whitespace). -/
def pWs (s : List Char) : List Char := s.dropWhile isPySpace

/-- consume a non-empty greedy run of characters of a class (`[^'"]+` or
`[0-9A-Fa-f]+`), returning the run and the rest. -/
def pClass1 (p : Char → Bool) (s : List Char) : Option (List Char × List Char) :=
  match s.takeWhile p with
  | [] => none
  | c :: cs => some (c :: cs, s.dropWhile p)

/-- stage 1 of the pattern: `{` `\\s*` `['"]` `id` `['"]` `\\s*` `:`. -/
def pHead (s : List Char) : Option (List Char) :=
  (pExact braceL s).bind fun s =>
  (pQuote (pWs s)).bind fun s =>
  (pExact 'i' s).bind fun s =>
  (pExact 'd' s).bind fun s =>
  (pQuote s).bind fun s =>
  pExact ':' (pWs s)

/-- stage 2: `\\s*` `['"]` capture `[^'"]+` `['"]`; returns the `calid`
group and the rest. -/
def pCalid (s : List Char) : Option (List Char × List Char) :=
  (pQuote (pWs s)).bind fun s =>
  (pClass1 (fun c => !isQuote c) s).bind fun r =>
  (pQuote r.2).bind fun s =>
  some (r.1, s)

/-- stage 3: `\\s*` `,` `\\s*` `['"]` `clr` `['"]` `\\s*` `:`. -/
def pClrKey (s : List Char) : Option (List Char) :=
  (pExact ',' (pWs s)).bind fun s =>
  (pQuote (pWs s)).bind fun s =>
  (pExact 'c' s).bind fun s =>
  (pExact 'l' s).bind fun s =>
  (pExact 'r' s).bind fun s =>
  (pQuote s).bind fun s =>
  pExact ':' (pWs s)

/-- stage 4: `\\s*` `['"]` capture `#[0-9A-Fa-f]+` `['"]`; returns the
`clr` group (with its leading `#`) and the rest. -/
def pClrVal (s : List Char) : Option (List Char × List Char) :=
  (pQuote (pWs s)).bind fun s =>
  (pExact '#' s).bind fun s =>
  (pClass1 isHexB s).bind fun r =>
  (pQuote r.2).bind fun s =>
  some ('#' :: r.1, s)

/-- stage 5: `\\s*` `}`. -/
def pClose (s : List Char) : Option (List Char) := pExact braceR (pWs s)

/-- try to match the full pattern at the head of `s`; on success return
the two captured groups (`calid`, and `clr` including its leading `#`)
and the remainder of the text after the match. -/
def tryMatch (s : List Char) : Option ((List Char × List Char) × List Char) :=
  (pHead s).bind fun s =>
  (pCalid s).bind fun rid =>
  (pClrKey rid.2).bind fun s =>
  (pClrVal s).bind fun rclr =>
  (pClose rclr.2).bind fun s =>
  some ((rid.1, rclr.1), s)

/-- the `finditer` scan: try the pattern at every position, left to
right, resuming after each match.  One unit of fuel is spent per
iteration; each iteration consumes at least one character. -/
def findIterAux : Nat → List Char → List (List Char × List Char)
  | _, [] => []
  | 0, _ => []
  | fuel + 1, c :: cs =>
    match tryMatch (c :: cs) with
    | some r => r.1 :: findIterAux fuel r.2
    | none => findIterAux fuel cs

/-- source `parse_calids_from_html` (lines 133-136): the list of
`(calid, clr)` group pairs of all matches, in order of occurrence. -/
def parse_calids_from_html (html : String) : List (String × String) :=
  (findIterAux html.data.length html.data).map (fun r => (⟨r.1⟩, ⟨r.2⟩))

/-- One well-formed `{ "id": ..., "clr": "#..." }` literal, given by its
free choices: the eight flexible-whitespace runs `w1`-`w8`, the eight
independent quote characters `q1`-`q8`, the calendar id and the hex
digits of the colour. -/
structure CalLit where
  w1 : List Char
  w2 : List Char
  w3 : List Char
  w4 : List Char
  w5 : List Char
  w6 : List Char
  w7 : List Char
  w8 : List Char
  q1 : Char
  q2 : Char
  q3 : Char
  q4 : Char
  q5 : Char
  q6 : Char
  q7 : Char
  q8 : Char
  calid : List Char
  hex : List Char

/-- Well-formedness of the literal's choices: whitespace runs are
whitespace, quote positions hold quotes, the id is non-empty and
quote-free, the colour has at least one hex digit. -/
def CalLit.valid (L : CalLit) : Prop :=
  (∀ c ∈ L.w1, isPySpace c = true) ∧ (∀ c ∈ L.w2, isPySpace c = true) ∧
  (∀ c ∈ L.w3, isPySpace c = true) ∧ (∀ c ∈ L.w4, isPySpace c = true) ∧
  (∀ c ∈ L.w5, isPySpace c = true) ∧ (∀ c ∈ L.w6, isPySpace c = true) ∧
  (∀ c ∈ L.w7, isPySpace c = true) ∧ (∀ c ∈ L.w8, isPySpace c = true) ∧
  isQuote L.q1 = true ∧ isQuote L.q2 = true ∧ isQuote L.q3 = true ∧
  isQuote L.q4 = true ∧ isQuote L.q5 = true ∧ isQuote L.q6 = true ∧
  isQuote L.q7 = true ∧ isQuote L.q8 = true ∧
  L.calid ≠ [] ∧ (∀ c ∈ L.calid, isQuote c = false) ∧
  L.hex ≠ [] ∧ (∀ c ∈ L.hex, isHexB c = true)

instance (L : CalLit) : Decidable L.valid := by
  unfold CalLit.valid; infer_instance

/-- the text of a well-formed literal. -/
def renderLit (L : CalLit) : List Char :=
  braceL :: (L.w1 ++ (L.q1 :: 'i' :: 'd' :: L.q2 ::
    (L.w2 ++ (':' :: (L.w3 ++ (L.q3 :: (L.calid ++ (L.q4 ::
    (L.w4 ++ (',' :: (L.w5 ++ (L.q5 :: 'c' :: 'l' :: 'r' :: L.q6 ::
    (L.w6 ++ (':' :: (L.w7 ++ (L.q7 :: '#' ::
    (L.hex ++ (L.q8 :: (L.w8 ++ [braceR])))))))))))))))))))

/-- the text after an initial filler: literals alternating with filler
text. -/
def renderDocTail : List (CalLit × List Char) → List Char
  | [] => []
  | (L, f) :: rest => renderLit L ++ (f ++ renderDocTail rest)

/-- a document: filler `f0`, then each literal followed by its filler. -/
def renderDoc (f0 : List Char) (segs : List (CalLit × List Char)) : List Char :=
  f0 ++ renderDocTail segs

/-- the `(id, colour)` pairs of the literals of a document, in order. -/
def litPairs (segs : List (CalLit × List Char)) : List (List Char × List Char) :=
  segs.map (fun s => (s.1.calid, '#' :: s.1.hex))

/-! ## The calendar fetcher (source `download_calendars`, lines 138-144)

The HTTP layer is an environment input: `fetch calid` is the response
(status, UTF-8 body) of the GET on the public feed URL built from
`calid`.  A failed `assert` raises, aborting the whole (lazily consumed)
generator, which the pipeline materializes into a list; this is the
`Except` value. -/

/-- One `(calid, clr)` pair as extracted by the feed locator. -/
structure CalRef where
  calid : String
  clr : String
deriving DecidableEq

/-- One downloaded feed: decoded iCal text and its colour. -/
structure Feed where
  ics : String
  clr : String
deriving DecidableEq

/-- source `download_calendars` (lines 138-144): fetch each calendar in
order; on a status other than 200 the `assert` fails with the message
naming the calendar id and status code, otherwise the decoded body is
yielded with its colour. -/
def download_calendars (fetch : String → Nat × String) : List CalRef → Except String (List Feed)
  | [] => .ok []
  | c :: rest =>
    let r := fetch c.calid
    if r.1 = 200 then
      match download_calendars fetch rest with
      | .ok fs => .ok (⟨r.2, c.clr⟩ :: fs)
      | .error e => .error e
    else
      .error ("Failed to download calendar " ++ c.calid ++ ": HTTP " ++ toString r.1)

/-! ## The export driver's poll loop (source `write_pdf_from_html`, lines 222-227)

After launching the renderer the source polls `os.path.exists` every
0.1 s and raises `TimeoutError` once the elapsed time exceeds the fixed
`timeout = 10` seconds.  Time is modelled by the idealized discrete
clock of the loop itself: at iteration `k` the elapsed time is `k/10`
seconds, so the guard `time.time() - start_time > timeout` is `k > 100`;
`exists_at k` is the filesystem's answer at iteration `k`.  The loop
performs at most 102 iterations (`k = 0` to `101`), which the fuel
makes structural. -/

/-- the timeout message `f'PDF file was not created within {timeout}
seconds: {output_path}'` with `timeout = 10`. -/
def pdfTimeoutMsg (output_path : String) : String :=
  "PDF file was not created within 10 seconds: " ++ output_path

/-- the polling loop body, at iteration `k`. -/
def pollAux (exists_at : Nat → Bool) (output_path : String) : Nat → Nat → Except String String
  | 0, _ => .error (pdfTimeoutMsg output_path)
  | fuel + 1, k =>
    if exists_at k then .ok output_path
    else if 100 < k then .error (pdfTimeoutMsg output_path)
    else pollAux exists_at output_path fuel (k + 1)

/-- the poll phase of source `write_pdf_from_html` (lines 222-227):
either the output path, or the timeout error. -/
def write_pdf_poll (exists_at : Nat → Bool) (output_path : String) : Except String String :=
  pollAux exists_at output_path 102 0

/-! ## PNG export (source `export_to_png`, lines 231-249)

The filesystem effects (removing stale PNGs, saving pixmaps) do not
influence the returned value; the one branch point is the best-effort
`os.remove(pdf_path)` wrapped in `try ... except OSError: pass`, whose
outcome is the parameter `removePdf`.  Path handling is Windows
(`ntpath`) semantics, modelled for drive-letter-free separators. -/

/-- failure of an `os` filesystem call. -/
inductive OSErr where
  | oserror
deriving DecidableEq

/-- whether a character is a Windows path separator. -/
def isSep (c : Char) : Bool := c == '/' || c == '\\'

/-- Python `ntpath.splitdrive`, restricted to drive-letter prefixes. -/
def ntSplitDrive (s : List Char) : List Char × List Char :=
  match s with
  | a :: b :: rest => if b = ':' then ([a, b], rest) else ([], s)
  | _ => ([], s)

/-- Python `ntpath.isabs`. -/
def ntIsAbs (s : String) : Bool :=
  match (ntSplitDrive s.data).2 with
  | [] => false
  | c :: _ => isSep c

/-- Python `ntpath.join(a, b)` for a relative second component. -/
def ntJoin (a b : String) : String :=
  match a.data.reverse with
  | [] => b
  | c :: _ => if isSep c then ⟨a.data ++ b.data⟩ else ⟨a.data ++ '\\' :: b.data⟩

/-- Python `ntpath.dirname`: drive plus everything before the last
separator, with trailing separators stripped unless the head is nothing
but separators. -/
def ntDirname (s : String) : String :=
  let p := ntSplitDrive s.data
  let head := (p.2.reverse.dropWhile (fun c => !isSep c)).reverse
  let stripped := (head.reverse.dropWhile isSep).reverse
  ⟨p.1 ++ (if stripped = [] then head else stripped)⟩

/-- source `export_to_png` (lines 231-249): absolutize the output path,
rasterize (an external effect), then best-effort delete the PDF —
`try: os.remove(pdf_path) except OSError: pass` — and return the output
directory. -/
def export_to_png (removePdf : Except OSErr Unit) (cwd output_path : String) : String :=
  let outp := if ntIsAbs output_path then output_path else ntJoin cwd output_path
  match removePdf with
  | .ok _ => ntDirname outp
  | .error _ => ntDirname outp

/-! ## The `--start-of-day` option (source `main`, line 259)

`argparse` with `type=bool` converts the supplied value string with
Python's `bool` constructor, whose truthiness on strings is plain
non-emptiness; when the option is absent the default `False` is used. -/

/-- Python `bool(s)` for a string `s`. -/
def pyBool (s : String) : Bool := decide (s ≠ "")

/-- the parsed `--start-of-day` flag: `none` is an omitted option (the
default `False`), `some v` a supplied value string converted by `bool`. -/
def parse_start_of_day : Option String → Bool
  | none => false
  | some v => pyBool v

/-! ## Concrete example inputs used by witnesses and examples -/

/-- an event safely in the future of the instant 0. -/
def eFut : Event := ⟨"E", none, .datetime 50, .datetime 100, "#000000"⟩

/-- event "A" of the sorter example: start 2025-01-01, summary "B". -/
def eA : Event := ⟨"B", none, .date ⟨2025, 1, 1⟩, .date ⟨2025, 1, 2⟩, "#111111"⟩

/-- event "B" of the sorter example: start 2025-01-01, summary "A". -/
def eB : Event := ⟨"A", none, .date ⟨2025, 1, 1⟩, .date ⟨2025, 1, 2⟩, "#222222"⟩

/-- two events with identical sort keys (summary and start equal). -/
def eDup1 : Event := ⟨"A", none, .date ⟨2025, 1, 1⟩, .date ⟨2025, 1, 2⟩, "#aaaaaa"⟩

/-- second event with the same sort key as `eDup1`. -/
def eDup2 : Event := ⟨"A", none, .date ⟨2025, 1, 1⟩, .date ⟨2025, 1, 2⟩, "#bbbbbb"⟩

/-- an event whose summary contains the literal text `@SRC_URL@`. -/
def eUrl : Event := ⟨"see @SRC_URL@ here", some ("Loc"), .date ⟨2025, 5, 1⟩, .date ⟨2025, 5, 2⟩, "#333333"⟩

/-- a well-formed literal: double quotes around `id` and `clr` keywords
with single-quoted values for the id, mixed whitespace. -/
def calLitEx : CalLit :=
  ⟨[' '], [' '], [' ', ' '], [], [' '], [], ['\t'], [' '],
   dquote, dquote, squote, squote, dquote, dquote, dquote, dquote,
   ['a', 'b', 'c'], ['F', '0', 'a']⟩

/-! # Theorems -/

/-! ## Shared helper lemmas -/

theorem pyStrLeB_refl : ∀ a, pyStrLeB a a = true
  | [] => rfl
  | _ :: cs => by simp [pyStrLeB, pyStrLeB_refl cs]

theorem pyStrLeB_total : ∀ a b, pyStrLeB a b || pyStrLeB b a
  | [], _ => by simp [pyStrLeB]
  | _ :: _, [] => by simp [pyStrLeB]
  | a :: as, b :: bs => by
    have ih := pyStrLeB_total as bs
    simp only [pyStrLeB, Bool.or_eq_true, Bool.and_eq_true, beq_iff_eq, decide_eq_true_eq] at *
    rcases Nat.lt_trichotomy a.toNat b.toNat with h | h | h
    · left; left; exact h
    · rcases ih with ih | ih
      · left; right; exact ⟨h, ih⟩
      · right; right; exact ⟨h.symm, ih⟩
    · right; left; exact h

theorem pyStrLeB_trans : ∀ a b c, pyStrLeB a b → pyStrLeB b c → pyStrLeB a c
  | [], _, _ => by simp [pyStrLeB]
  | _ :: _, [], _ => by simp [pyStrLeB]
  | _ :: _, _ :: _, [] => by simp [pyStrLeB]
  | a :: as, b :: bs, c :: cs => by
    have ih := pyStrLeB_trans as bs cs
    simp only [pyStrLeB, Bool.or_eq_true, Bool.and_eq_true, beq_iff_eq, decide_eq_true_eq] at *
    intro h1 h2
    rcases h1 with h1 | ⟨h1e, h1r⟩ <;> rcases h2 with h2 | ⟨h2e, h2r⟩
    · omega
    · omega
    · omega
    · right; exact ⟨by omega, ih h1r h2r⟩

/-! ## Claim C1: the Time Filter -/

/-- Claim C1: the Time Filter retains an event if and only if its
normalized end (datetimes unchanged, bare dates mapped to Budapest
midnight) is strictly greater than the reference instant; equality is
excluded, and the relative order of retained events is preserved (the
result is a sublist of the input). -/
theorem get_future_events_retains_iff (now : Int) (sod : Bool) (evts : List Event) (e : Event) :
    (e ∈ get_future_events now sod evts ↔ e ∈ evts ∧ reference now sod < get_time e.end_)
    ∧ (get_future_events now sod evts).Sublist evts
    ∧ (∀ t, get_time (PyDT.datetime t) = t)
    ∧ (∀ d, get_time (PyDT.date d) = budapestMidnight d)
    ∧ (get_time e.end_ = reference now sod → e ∉ get_future_events now sod evts) := by
  refine ⟨?_, ?_, fun _ => rfl, fun _ => rfl, ?_⟩
  · simp [get_future_events, List.mem_filter]
  · exact List.filter_sublist evts
  · intro heq hmem
    have h1 : reference now sod < get_time e.end_ := by
      have h2 := hmem
      simp only [get_future_events, List.mem_filter, decide_eq_true_eq] at h2
      exact h2.2
    rw [heq] at h1
    exact lt_irrefl _ h1

/-- Witness for C1 at a concrete input: an event ending at instant 100
is retained for the reference instant 0. -/
theorem get_future_events_retains_iff_witness :
    eFut ∈ get_future_events 0 false [eFut] :=
  (get_future_events_retains_iff 0 false [eFut] eFut).1.mpr ⟨by simp, by decide⟩

/-! ## Claim C2: end-date decrement in display formatting -/

/-- Claim C2: in this (closed-interval) variant, `format_dt` decrements a
date-only end value by one day before formatting it as `YYYY.MM.DD.`
(so the end date 2025-03-10 renders as `2025.03.09.`), while a start
value is never decremented and a datetime-valued end is formatted
without decrement, as local Budapest time with ` HH:MM` appended. -/
theorem format_dt_end_decrement :
    format_dt (PyDT.date ⟨2025, 3, 10⟩) true = "2025.03.09."
    ∧ format_dt (PyDT.date ⟨2025, 3, 10⟩) false = "2025.03.10."
    ∧ (∀ d, format_dt (PyDT.date d) true = format_dt (PyDT.date (dayPred d)) false)
    ∧ (∀ d, format_dt (PyDT.date d) false = formatDateFmt d)
    ∧ (∀ t e, format_dt (PyDT.datetime t) e = format_dt (PyDT.datetime t) false)
    ∧ (∀ t e, format_dt (PyDT.datetime t) e =
        formatDateFmt (budapestCivilDate t) ++ " " ++
          pad2 (Int.ediv (Int.emod (t + budapestOffsetAtUtc t) 86400) 3600) ++ ":" ++
          pad2 (Int.ediv (Int.emod (Int.emod (t + budapestOffsetAtUtc t) 86400) 3600) 60)) := by
  refine ⟨by decide, by decide, fun d => rfl, fun d => rfl, fun t e => rfl, fun t e => rfl⟩

/-! ## Claim C8: best-effort PDF deletion -/

/-- Claim C8: deleting the intermediate PDF is best-effort: an `OSError`
from the removal is swallowed and `export_to_png` returns the output
directory (of the absolutized output path) all the same. -/
theorem export_to_png_cleanup_swallowed :
    (∀ (r : Except OSErr Unit) (cwd p : String),
        export_to_png r cwd p = ntDirname (if ntIsAbs p then p else ntJoin cwd p))
    ∧ (∀ cwd p, export_to_png (.error .oserror) cwd p = export_to_png (.ok ()) cwd p) := by
  constructor
  · intro r cwd p; cases r <;> rfl
  · intro cwd p; rfl

/-! ## Claim C10: the `--start-of-day` option -/

/-- Claim C10: `--start-of-day` is converted with Python's `bool`, so any
non-empty value string — including `'False'` — turns the flag on; the
flag is `False` only when the option is omitted or its value is the
empty string, so the truncation cannot be disabled by an explicit false
value. -/
theorem start_of_day_bool_conversion :
    (∀ v : String, v ≠ "" → parse_start_of_day (some v) = true)
    ∧ parse_start_of_day (some ("False")) = true
    ∧ parse_start_of_day none = false
    ∧ parse_start_of_day (some ("")) = false
    ∧ (∀ (v : String) (now : Int) (evts : List Event), v ≠ "" →
        get_future_events now (parse_start_of_day (some v)) evts
          = get_future_events now true evts) := by
  refine ⟨?_, by decide, rfl, by decide, ?_⟩
  · intro v h
    simp [parse_start_of_day, pyBool, h]
  · intro v now evts h
    have hv : parse_start_of_day (some v) = true := by
      simp [parse_start_of_day, pyBool, h]
    rw [hv]

/-- Witness for C10 at the concrete value `'False'`: the flag is set and
the filter truncates exactly as with an explicit `true`. -/
theorem start_of_day_bool_conversion_witness :
    parse_start_of_day (some ("False")) = true
    ∧ get_future_events 0 (parse_start_of_day (some ("False"))) []
        = get_future_events 0 true [] :=
  ⟨start_of_day_bool_conversion.2.1,
   start_of_day_bool_conversion.2.2.2.2 ("False") 0 [] (by decide)⟩

/-! ## Claim C6: the calendar fetcher's status assertion -/

theorem download_calendars_all_ok (fetch : String → Nat × String) :
    ∀ cals : List CalRef, (∀ c ∈ cals, (fetch c.calid).1 = 200) →
      download_calendars fetch cals =
        .ok (cals.map fun c => ⟨(fetch c.calid).2, c.clr⟩) := by
  intro cals
  induction cals with
  | nil => intro _; rfl
  | cons c rest ih =>
    intro h
    have hc : (fetch c.calid).1 = 200 := h c (by simp)
    simp only [download_calendars, hc, if_pos]
    rw [ih (fun a ha => h a (by simp [ha]))]
    simp

theorem download_calendars_first_bad (fetch : String → Nat × String) :
    ∀ (pre : List CalRef) (c : CalRef) (post : List CalRef),
      (∀ a ∈ pre, (fetch a.calid).1 = 200) → (fetch c.calid).1 ≠ 200 →
      download_calendars fetch (pre ++ c :: post) =
        .error ("Failed to download calendar " ++ c.calid ++ ": HTTP "
          ++ toString (fetch c.calid).1) := by
  intro pre
  induction pre with
  | nil =>
    intro c post _ hbad
    simp only [List.nil_append, download_calendars]
    rw [if_neg hbad]
  | cons a pre' ih =>
    intro c post hok hbad
    have ha : (fetch a.calid).1 = 200 := hok a (by simp)
    simp only [List.cons_append, download_calendars, ha, if_pos, List.append_eq]
    rw [ih c post (fun x hx => hok x (by simp [hx])) hbad]

/-- Claim C6: for every fetched calendar, a response status other than
200 aborts the run with the assertion message naming the calendar id and
the status code; with status exactly 200 every feed is yielded as its
decoded body paired with its colour. -/
theorem download_calendars_status (fetch : String → Nat × String) :
    (∀ cals : List CalRef, (∀ c ∈ cals, (fetch c.calid).1 = 200) →
        download_calendars fetch cals =
          .ok (cals.map fun c => ⟨(fetch c.calid).2, c.clr⟩))
    ∧ (∀ (pre : List CalRef) (c : CalRef) (post : List CalRef),
        (∀ a ∈ pre, (fetch a.calid).1 = 200) → (fetch c.calid).1 ≠ 200 →
        download_calendars fetch (pre ++ c :: post) =
          .error ("Failed to download calendar " ++ c.calid ++ ": HTTP "
            ++ toString (fetch c.calid).1)) :=
  ⟨download_calendars_all_ok fetch, download_calendars_first_bad fetch⟩

/-- Witness for C6 at a concrete two-calendar universe: the good
calendar downloads, the bad one aborts with the expected message. -/
theorem download_calendars_status_witness :
    download_calendars (fun s => if s = ("bad") then (404, ("")) else (200, ("ICS")))
        [⟨("good"), ("#fff")⟩] = .ok [⟨("ICS"), ("#fff")⟩]
    ∧ download_calendars (fun s => if s = ("bad") then (404, ("")) else (200, ("ICS")))
        [⟨("bad"), ("#fff")⟩]
        = .error ("Failed to download calendar bad: HTTP 404") := by
  constructor
  · have h := (download_calendars_status
      (fun s => if s = ("bad") then (404, ("")) else (200, ("ICS")))).1
      [⟨("good"), ("#fff")⟩] (by decide)
    rw [h]; rfl
  · have h := (download_calendars_status
      (fun s => if s = ("bad") then (404, ("")) else (200, ("ICS")))).2
      [] ⟨("bad"), ("#fff")⟩ [] (by simp) (by decide)
    exact h

/-! ## Claim C7: the PDF poll loop timeout -/

theorem pollAux_times_out (ex : Nat → Bool) (path : String) :
    ∀ (fuel k : Nat), k ≤ 101 → (∀ j, j ≤ 101 → ex j = false) →
      pollAux ex path fuel k = .error (pdfTimeoutMsg path)
  | 0, _ => by intro _ _; rfl
  | fuel + 1, k => by
    intro hk hex
    simp only [pollAux, hex k hk, Bool.false_eq_true, if_false]
    by_cases h : 100 < k
    · rw [if_pos h]
    · rw [if_neg h]
      exact pollAux_times_out ex path fuel (k + 1) (by omega) hex

theorem pollAux_finds (ex : Nat → Bool) (path : String)
    (mono : ∀ i j, i ≤ j → ex i = true → ex j = true) (k0 : Nat) (hk0 : ex k0 = true) :
    ∀ (fuel k : Nat), k ≤ k0 → k0 ≤ 101 → 102 - k ≤ fuel →
      pollAux ex path fuel k = .ok path
  | 0, k => by intro h1 h2 h3; omega
  | fuel + 1, k => by
    intro hkk0 hk0101 hfuel
    by_cases h : ex k = true
    · simp only [pollAux, h, if_true]
    · have hfalse : ex k = false := by simpa using h
      have hlt : k < k0 := by
        rcases Nat.lt_or_ge k k0 with hlt | hge
        · exact hlt
        · exact absurd (mono k0 k hge hk0) (by simp [hfalse])
      simp only [pollAux, hfalse, Bool.false_eq_true, if_false]
      rw [if_neg (by omega : ¬ 100 < k)]
      exact pollAux_finds ex path mono k0 hk0 fuel (k + 1) (by omega) hk0101 (by omega)

/-- Claim C7: if the renderer never produces the file, the poll loop
fails with the timeout error reporting the 10-second bound (checks run
at 0.1-second intervals, so existence is consulted at iterations 0
through 101 and no further); if the file appears within the window, the
loop returns the output path. -/
theorem write_pdf_poll_timeout (ex : Nat → Bool) (path : String) :
    ((∀ j, j ≤ 101 → ex j = false) →
        write_pdf_poll ex path = .error (pdfTimeoutMsg path))
    ∧ ((∀ i j, i ≤ j → ex i = true → ex j = true) →
        ∀ k0, ex k0 = true → k0 ≤ 101 → write_pdf_poll ex path = .ok path)
    ∧ pdfTimeoutMsg path = "PDF file was not created within 10 seconds: " ++ path := by
  refine ⟨?_, ?_, rfl⟩
  · intro h
    exact pollAux_times_out ex path 102 0 (by omega) h
  · intro mono k0 hk0 hle
    exact pollAux_finds ex path mono k0 hk0 102 0 (by omega) hle (by omega)

/-- Witness for C7 at concrete filesystems: one where the file never
appears (timeout) and one where it exists from the start (success). -/
theorem write_pdf_poll_timeout_witness :
    write_pdf_poll (fun _ => false) ("out.pdf") = .error (pdfTimeoutMsg ("out.pdf"))
    ∧ write_pdf_poll (fun _ => true) ("out.pdf") = .ok ("out.pdf") :=
  ⟨(write_pdf_poll_timeout (fun _ => false) ("out.pdf")).1 (fun _ _ => rfl),
   (write_pdf_poll_timeout (fun _ => true) ("out.pdf")).2.1 (fun _ _ _ _ => rfl) 0 rfl (by omega)⟩

/-! ## Claim C3: the sorter's stable total order -/

theorem evtLe_trans : ∀ a b c : Event, evtLe a b → evtLe b c → evtLe a c := by
  intro a b c
  simp only [evtLe, Bool.or_eq_true, Bool.and_eq_true, decide_eq_true_eq]
  intro h1 h2
  rcases h1 with h1 | ⟨h1e, h1s⟩ <;> rcases h2 with h2 | ⟨h2e, h2s⟩
  · left; omega
  · left; omega
  · left; omega
  · right; exact ⟨by omega, pyStrLeB_trans _ _ _ h1s h2s⟩

theorem evtLe_total : ∀ a b : Event, evtLe a b || evtLe b a := by
  intro a b
  simp only [evtLe, Bool.or_eq_true, Bool.and_eq_true, decide_eq_true_eq]
  rcases Int.lt_trichotomy (get_time a.start) (get_time b.start) with h | h | h
  · left; left; exact h
  · have hs := pyStrLeB_total a.summary.data b.summary.data
    simp only [Bool.or_eq_true] at hs
    rcases hs with hs | hs
    · left; right; exact ⟨h, hs⟩
    · right; right; exact ⟨h.symm, hs⟩
  · right; left; exact h

theorem evtLe_of_key_eq (a b : Event) (h : evtKey a = evtKey b) : evtLe a b = true := by
  simp only [evtKey, Prod.mk.injEq] at h
  simp only [evtLe, Bool.or_eq_true, Bool.and_eq_true, decide_eq_true_eq]
  right
  refine ⟨h.1, ?_⟩
  rw [h.2]
  exact pyStrLeB_refl _

/-- Claim C3: the sorter orders events by the pair (normalized start
instant, summary), both ascending, as a stable total order: the result
is a permutation of the input, pairwise ordered by the lexicographic
key comparison; events with equal keys keep their original relative
order; and in the concrete tie on start 2025-01-01, the event with the
smaller summary comes first. -/
theorem sorter_stable_total_order (evts : List Event) :
    (sortEvents evts).Perm evts
    ∧ (sortEvents evts).Pairwise (fun a b => evtLe a b = true)
    ∧ (∀ a b : Event, evtKey a = evtKey b →
        (([a, b] : List Event)).Sublist evts →
        (([a, b] : List Event)).Sublist (sortEvents evts))
    ∧ sortEvents [eA, eB] = [eB, eA] := by
  refine ⟨List.mergeSort_perm evts evtLe,
    List.sorted_mergeSort evtLe_trans evtLe_total evts, ?_, ?_⟩
  · intro a b hk hsub
    exact List.pair_sublist_mergeSort evtLe_trans evtLe_total (evtLe_of_key_eq a b hk) hsub
  · have hAB : evtLe eA eB = false := by decide
    show List.mergeSort [eA, eB] evtLe = [eB, eA]
    simp [List.mergeSort, List.splitInTwo, List.splitAt, List.splitAt.go, List.merge, hAB]

/-- Witness for C3 at a concrete input: two events with identical keys
keep their original relative order through the sort. -/
theorem sorter_stable_total_order_witness :
    (([eDup1, eDup2] : List Event)).Sublist (sortEvents [eDup1, eDup2]) :=
  (sorter_stable_total_order [eDup1, eDup2]).2.2.1 eDup1 eDup2 (by decide) (List.Sublist.refl _)

/-! ## Claim C5: one verbatim row per event, no filler -/

theorem tableRows_foldl_map (l : List Event) : ∀ acc : List String,
    l.foldl (fun html evt => html ++ [eventRow evt]) acc = acc ++ l.map eventRow := by
  induction l with
  | nil => intro acc; simp
  | cons e es ih => intro acc; simp [List.foldl_cons, ih]

/-- Claim C5: the renderer produces exactly one body row per event, in
the given order and with no filler rows, and each row splices the colour,
the formatted dates, the summary and the location (empty when absent)
verbatim, with no HTML escaping. -/
theorem events_to_html_table_rows (evts : List Event) :
    (tableRows evts).length = evts.length
    ∧ tableRows evts = evts.map eventRow
    ∧ (∀ e : Event, eventRow e =
        "<tr style=\"color: " ++ e.clr ++ ";\">" ++ "<td>" ++ format_dt e.start false ++
          "</td><td>" ++ format_dt e.end_ true ++ "</td>" ++ "<td>" ++ e.summary ++
          "</td><td>" ++ e.location.getD ("") ++ "</td></tr>")
    ∧ (∀ e : Event, e.location = none → e.location.getD ("") = "") := by
  have hmap : tableRows evts = evts.map eventRow := by
    unfold tableRows
    rw [tableRows_foldl_map]
    simp
  refine ⟨by rw [hmap]; simp, hmap, ?_, ?_⟩
  · intro e
    simp only [eventRow, String.append_assoc]
  · intro e h
    rw [h]
    rfl

/-- Witness for C5 at a concrete input: a single event with an absent
location produces exactly one row, whose location cell is empty. -/
theorem events_to_html_table_rows_witness :
    (tableRows [eFut]).length = 1 ∧ eFut.location.getD ("") = "" :=
  ⟨(events_to_html_table_rows [eFut]).1, (events_to_html_table_rows [eFut]).2.2.2 eFut rfl⟩

/-! ## Claim C9: replacement order and reach of `@SRC_URL@` substitution -/

set_option maxRecDepth 100000 in
/-- Claim C9: the renderer substitutes the joined rows for only the
first occurrence of `@TABLE_ROWS@` (`replace` with count 1) and
afterwards replaces every occurrence of `@SRC_URL@` in the resulting
document, so an occurrence of `@SRC_URL@` inside an event's summary is
replaced by the local base URI as well. -/
theorem events_to_html_table_replace_order :
    (∀ url evts, events_to_html_table url evts =
        pyReplaceAll (pyReplaceFirst HTML_TEMPLATE ("@TABLE_ROWS@")
          (String.intercalate ("\n") (tableRows evts))) ("@SRC_URL@") url)
    ∧ pyReplaceFirst ("<a>@TABLE_ROWS@<b>@TABLE_ROWS@<c>") ("@TABLE_ROWS@") ("R")
        = ("<a>R<b>@TABLE_ROWS@<c>")
    ∧ pyContains (eventRow eUrl) ("@SRC_URL@") = true
    ∧ pyContains (events_to_html_table ("file:///U") [eUrl]) ("@SRC_URL@") = false
    ∧ pyContains (events_to_html_table ("file:///U") [eUrl]) ("see file:///U here") = true := by
  refine ⟨fun url evts => rfl, by decide, by decide, by decide, by decide⟩

/-! ## Claim C4: the feed locator extracts exactly the embedded literals -/

theorem pExact_cons_self (c : Char) (t : List Char) : pExact c (c :: t) = some t := by
  simp [pExact]

theorem pQuote_cons (x : Char) (t : List Char) (h : isQuote x = true) :
    pQuote (x :: t) = some t := by
  simp [pQuote, h]

theorem pWs_append (w t : List Char) (h : ∀ c ∈ w, isPySpace c = true) :
    pWs (w ++ t) = pWs t := by
  induction w with
  | nil => rfl
  | cons c cs ih =>
    simp only [List.cons_append, pWs, List.dropWhile_cons, h c (by simp), if_true]
    exact ih (fun x hx => h x (by simp [hx]))

theorem pWs_cons_not (x : Char) (t : List Char) (h : isPySpace x = false) :
    pWs (x :: t) = x :: t := by
  simp [pWs, List.dropWhile_cons, h]

theorem isQuote_not_space (c : Char) (h : isQuote c = true) : isPySpace c = false := by
  simp only [isQuote, Bool.or_eq_true, beq_iff_eq] at h
  rcases h with h | h <;> subst h <;> decide

theorem isQuote_not_hex (c : Char) (h : isQuote c = true) : isHexB c = false := by
  simp only [isQuote, Bool.or_eq_true, beq_iff_eq] at h
  rcases h with h | h <;> subst h <;> decide

theorem takeWhile_append_exact (p : Char → Bool) : ∀ (xs : List Char) (y : Char) (t : List Char),
    (∀ c ∈ xs, p c = true) → p y = false →
    List.takeWhile p (xs ++ y :: t) = xs
  | [], y, t => by
    intro _ hy
    simp [List.takeWhile_cons, hy]
  | x :: xs, y, t => by
    intro hall hy
    simp only [List.cons_append, List.takeWhile_cons, hall x (by simp), if_true]
    rw [takeWhile_append_exact p xs y t (fun c hc => hall c (by simp [hc])) hy]

theorem dropWhile_append_exact (p : Char → Bool) : ∀ (xs : List Char) (y : Char) (t : List Char),
    (∀ c ∈ xs, p c = true) → p y = false →
    List.dropWhile p (xs ++ y :: t) = y :: t
  | [], y, t => by
    intro _ hy
    simp [List.dropWhile_cons, hy]
  | x :: xs, y, t => by
    intro hall hy
    simp only [List.cons_append, List.dropWhile_cons, hall x (by simp), if_true]
    exact dropWhile_append_exact p xs y t (fun c hc => hall c (by simp [hc])) hy

theorem pClass1_exact (p : Char → Bool) (xs : List Char) (y : Char) (t : List Char)
    (hne : xs ≠ []) (hall : ∀ c ∈ xs, p c = true) (hy : p y = false) :
    pClass1 p (xs ++ y :: t) = some (xs, y :: t) := by
  unfold pClass1
  rw [takeWhile_append_exact p xs y t hall hy, dropWhile_append_exact p xs y t hall hy]
  cases xs with
  | nil => exact absurd rfl hne
  | cons a as => rfl

theorem pHead_render (w1 w2 : List Char) (q1 q2 : Char) (rest : List Char)
    (hw1 : ∀ c ∈ w1, isPySpace c = true) (hw2 : ∀ c ∈ w2, isPySpace c = true)
    (hq1 : isQuote q1 = true) (hq2 : isQuote q2 = true) :
    pHead (braceL :: (w1 ++ (q1 :: 'i' :: 'd' :: q2 :: (w2 ++ (':' :: rest))))) = some rest := by
  simp only [pHead, pExact_cons_self, Option.some_bind, pWs_append _ _ hw1,
    pWs_cons_not _ _ (isQuote_not_space _ hq1), pQuote_cons _ _ hq1,
    pQuote_cons _ _ hq2, pWs_append _ _ hw2,
    pWs_cons_not _ _ (by decide : isPySpace ':' = false)]

theorem pCalid_render (w3 : List Char) (q3 q4 : Char) (calid rest : List Char)
    (hw3 : ∀ c ∈ w3, isPySpace c = true) (hq3 : isQuote q3 = true) (hq4 : isQuote q4 = true)
    (hid : calid ≠ []) (hidq : ∀ c ∈ calid, isQuote c = false) :
    pCalid (w3 ++ (q3 :: (calid ++ (q4 :: rest)))) = some (calid, rest) := by
  simp only [pCalid, pWs_append _ _ hw3, pWs_cons_not _ _ (isQuote_not_space _ hq3),
    pQuote_cons _ _ hq3, Option.some_bind,
    pClass1_exact (fun c => !isQuote c) calid q4 rest hid
      (fun c hc => by simp [hidq c hc]) (by simp [hq4]),
    pQuote_cons _ _ hq4]

theorem pClrKey_render (w4 w5 w6 : List Char) (q5 q6 : Char) (rest : List Char)
    (hw4 : ∀ c ∈ w4, isPySpace c = true) (hw5 : ∀ c ∈ w5, isPySpace c = true)
    (hw6 : ∀ c ∈ w6, isPySpace c = true)
    (hq5 : isQuote q5 = true) (hq6 : isQuote q6 = true) :
    pClrKey (w4 ++ (',' :: (w5 ++ (q5 :: 'c' :: 'l' :: 'r' :: q6 :: (w6 ++ (':' :: rest))))))
      = some rest := by
  simp only [pClrKey, pWs_append _ _ hw4, pWs_append _ _ hw5, pWs_append _ _ hw6,
    pWs_cons_not _ _ (by decide : isPySpace ',' = false),
    pWs_cons_not _ _ (by decide : isPySpace ':' = false),
    pWs_cons_not _ _ (isQuote_not_space _ hq5),
    pExact_cons_self, Option.some_bind, pQuote_cons _ _ hq5, pQuote_cons _ _ hq6]

theorem pClrVal_render (w7 : List Char) (q7 q8 : Char) (hex rest : List Char)
    (hw7 : ∀ c ∈ w7, isPySpace c = true) (hq7 : isQuote q7 = true) (hq8 : isQuote q8 = true)
    (hhne : hex ≠ []) (hhx : ∀ c ∈ hex, isHexB c = true) :
    pClrVal (w7 ++ (q7 :: '#' :: (hex ++ (q8 :: rest)))) = some ('#' :: hex, rest) := by
  simp only [pClrVal, pWs_append _ _ hw7, pWs_cons_not _ _ (isQuote_not_space _ hq7),
    pQuote_cons _ _ hq7, Option.some_bind, pExact_cons_self,
    pClass1_exact isHexB hex q8 rest hhne hhx (isQuote_not_hex _ hq8),
    pQuote_cons _ _ hq8]

theorem pClose_render (w8 : List Char) (rest : List Char)
    (hw8 : ∀ c ∈ w8, isPySpace c = true) :
    pClose (w8 ++ (braceR :: rest)) = some rest := by
  simp only [pClose, pWs_append _ _ hw8,
    pWs_cons_not _ _ (by decide : isPySpace braceR = false), pExact_cons_self]

theorem tryMatch_renderLit (L : CalLit) (hv : L.valid) (rest : List Char) :
    tryMatch (renderLit L ++ rest) = some ((L.calid, '#' :: L.hex), rest) := by
  obtain ⟨hw1, hw2, hw3, hw4, hw5, hw6, hw7, hw8,
    hq1, hq2, hq3, hq4, hq5, hq6, hq7, hq8, hid, hidq, hhxne, hhx⟩ := hv
  simp only [renderLit, List.cons_append, List.append_assoc, List.nil_append]
  simp only [tryMatch,
    pHead_render _ _ _ _ _ hw1 hw2 hq1 hq2, Option.some_bind,
    pCalid_render _ _ _ _ _ hw3 hq3 hq4 hid hidq,
    pClrKey_render _ _ _ _ _ _ hw4 hw5 hw6 hq5 hq6,
    pClrVal_render _ _ _ _ _ hw7 hq7 hq8 hhxne hhx,
    pClose_render _ _ hw8]

theorem tryMatch_no_brace (c : Char) (t : List Char) (h : c ≠ braceL) :
    tryMatch (c :: t) = none := by
  simp [tryMatch, pHead, pExact, h]

theorem findIterAux_succ_of_match (fuel : Nat) (s : List Char)
    (r : (List Char × List Char) × List Char) (hne : s ≠ [])
    (h : tryMatch s = some r) :
    findIterAux (fuel + 1) s = r.1 :: findIterAux fuel r.2 := by
  cases s with
  | nil => exact absurd rfl hne
  | cons c cs => simp [findIterAux, h]

theorem findIterAux_no_brace : ∀ (fuel : Nat) (s : List Char),
    (∀ c ∈ s, c ≠ braceL) → findIterAux fuel s = [] := by
  intro fuel s
  induction s generalizing fuel with
  | nil => intro _; cases fuel <;> rfl
  | cons c cs ih =>
    intro h
    cases fuel with
    | zero => rfl
    | succ f =>
      simp only [findIterAux, tryMatch_no_brace c cs (h c (by simp))]
      exact ih f (fun x hx => h x (by simp [hx]))

theorem findIterAux_skip (t : List Char) : ∀ (f : List Char) (fuel : Nat),
    (∀ c ∈ f, c ≠ braceL) →
    findIterAux (f.length + fuel) (f ++ t) = findIterAux fuel t := by
  intro f
  induction f with
  | nil => intro fuel _; simp
  | cons c cs ih =>
    intro fuel h
    have h1 : (c :: cs).length + fuel = (cs.length + fuel) + 1 := by
      simp only [List.length_cons]
      omega
    rw [h1, List.cons_append]
    simp only [findIterAux, tryMatch_no_brace c _ (h c (by simp))]
    exact ih fuel (fun x hx => h x (by simp [hx]))

theorem findIterAux_renderDoc : ∀ (segs : List (CalLit × List Char)) (f0 : List Char) (fuel : Nat),
    (∀ c ∈ f0, c ≠ braceL) →
    (∀ s ∈ segs, s.1.valid ∧ ∀ c ∈ s.2, c ≠ braceL) →
    (renderDoc f0 segs).length ≤ fuel →
    findIterAux fuel (renderDoc f0 segs) = litPairs segs := by
  intro segs
  induction segs with
  | nil =>
    intro f0 fuel h0 _ _
    simp only [renderDoc, renderDocTail, List.append_nil, litPairs, List.map_nil]
    exact findIterAux_no_brace fuel f0 h0
  | cons seg segs ih =>
    intro f0 fuel h0 hsegs hfuel
    obtain ⟨L, f1⟩ := seg
    have hL : L.valid := (hsegs (L, f1) (by simp)).1
    have hf1 : ∀ c ∈ f1, c ≠ braceL := (hsegs (L, f1) (by simp)).2
    have hlen : (renderDoc f0 ((L, f1) :: segs)).length =
        f0.length + ((renderLit L).length + (f1.length + (renderDocTail segs).length)) := by
      simp [renderDoc, renderDocTail, List.length_append]
    rw [hlen] at hfuel
    have hBpos : 1 ≤ (renderLit L).length := by simp [renderLit]
    have hfe : fuel = f0.length + (fuel - f0.length) := by omega
    rw [show renderDoc f0 ((L, f1) :: segs) = f0 ++ (renderLit L ++ (f1 ++ renderDocTail segs))
      from by simp [renderDoc, renderDocTail]]
    rw [hfe, findIterAux_skip _ f0 _ h0]
    obtain ⟨k, hkk⟩ : ∃ k, fuel - f0.length = k + 1 :=
      ⟨fuel - f0.length - 1, by omega⟩
    rw [hkk]
    have hne : renderLit L ++ (f1 ++ renderDocTail segs) ≠ [] := by simp [renderLit]
    rw [findIterAux_succ_of_match k _ _ hne (tryMatch_renderLit L hL (f1 ++ renderDocTail segs))]
    rw [show findIterAux k (f1 ++ renderDocTail segs) = findIterAux k (renderDoc f1 segs)
      from rfl]
    rw [ih f1 k hf1 (fun s hs => hsegs s (by simp [hs]))
      (by simp only [renderDoc, List.length_append]; omega)]
    simp [litPairs]

/-- Claim C4: on every document made of well-formed `{id, clr}` literals
embedded in surrounding text (the fillers, containing no `{`), the
locator extracts exactly the `(id, colour)` pairs of the literals, in
order of occurrence, for every combination of quote styles and
whitespace inside the literals. -/
theorem parse_calids_extracts_all (f0 : List Char) (segs : List (CalLit × List Char))
    (h0 : ∀ c ∈ f0, c ≠ braceL)
    (hsegs : ∀ s ∈ segs, s.1.valid ∧ ∀ c ∈ s.2, c ≠ braceL) :
    parse_calids_from_html ⟨renderDoc f0 segs⟩ =
      segs.map (fun s => ((⟨s.1.calid⟩ : String), (⟨'#' :: s.1.hex⟩ : String))) := by
  unfold parse_calids_from_html
  rw [findIterAux_renderDoc segs f0 _ h0 hsegs (le_refl _)]
  simp [litPairs, List.map_map]

/-- Witness for C4 at a concrete document: one literal with mixed quote
styles and whitespace between brace-free fillers. -/
theorem parse_calids_extracts_all_witness :
    parse_calids_from_html ⟨renderDoc (['x', ' ', '[']) [(calLitEx, ([']', ' ', 'y']))]⟩ =
      [((⟨['a', 'b', 'c']⟩ : String), (⟨['#', 'F', '0', 'a']⟩ : String))] := by
  rw [parse_calids_extracts_all (['x', ' ', '[']) [(calLitEx, ([']', ' ', 'y']))]
    (by decide) (by decide)]
  rfl
